import Mathlib

/-!
# ThinkAlert (`thinkalert.c`): a shallow embedding and its verified properties

The program opens the ThinkLight control file, drops privileges, and either
switches the light once or blinks it and restores the recorded initial state.

The embedding records what the program does as a trace of the library and
system calls it issues (`Call`).  C `int` values are integers kept in the
range of a signed 32-bit word by `wrapInt`.  The `while (t--)` loop of `blink`
is a recursion on an explicit amount of fuel.
-/

namespace ThinkAlert

/-! ## Machine integers -/

/-- Reduction of an integer to the range of a signed 32-bit `int`, wrapping around. -/
def wrapInt (x : Int) : Int := (x + 2147483648) % 4294967296 - 2147483648

/-- Largest value of a 64-bit `long`. -/
def LONG_MAX : Int := 9223372036854775807

/-- Smallest value of a 64-bit `long`. -/
def LONG_MIN : Int := -9223372036854775808

/-! ## The C library function `atoi`

`atoi` is not part of the program but of the C library.  It is modelled the
way glibc implements it on LP64: `(int) strtol (nptr, NULL, 10)`. -/

/-- Characters accepted by `isspace` in the C locale. -/
def isspace (c : Char) : Bool :=
  c = ' ' || c = '\t' || c = '\n' || c = '\x0b' || c = '\x0c' || c = '\r'

/-- Leading run of decimal digits of a string, accumulated as a natural number. -/
def digitsValue : Nat → List Char → Nat
  | acc, [] => acc
  | acc, c :: cs =>
    if c.isDigit then digitsValue (acc * 10 + (c.toNat - '0'.toNat)) cs else acc

/-- Sign and digits: the part of `strtol` after the leading white space. -/
def strtolSigned : List Char → Int
  | '-' :: cs => max LONG_MIN (-(digitsValue 0 cs : Int))
  | '+' :: cs => min LONG_MAX (digitsValue 0 cs : Int)
  | cs => min LONG_MAX (digitsValue 0 cs : Int)

/-- Model of `strtol (s, NULL, 10)`: skip white space, read an optional sign and
the decimal digits, saturate at the bounds of `long`. -/
def strtol : List Char → Int
  | [] => 0
  | c :: cs => if isspace c then strtol cs else strtolSigned (c :: cs)

/-- Model of `atoi`: the value of `strtol` converted to `int`. -/
def atoi (s : String) : Int := wrapInt (strtol s.toList)

/-! ## Calls issued by the program -/

/-- Credential system calls made by `dropPrivs`. -/
inductive CredCall where
  | getgid
  | getegid
  | getuid
  | geteuid
  | setgroups (gid : Nat)
  | setregid (rgid egid : Nat)
  | setreuid (ruid euid : Nat)
  | setegid (gid : Nat)
  | seteuid (uid : Nat)
  deriving DecidableEq, Repr

/-- Library and system calls observable in a run of the program.  `usleep d`
carries the argument as `usleep` receives it, a `useconds_t`; `ret` is the
return from `main`. -/
inductive Call where
  | fopen (path mode : String)
  | perror (msg : String)
  | printf (msg : String)
  | rewind
  | fprintf (s : String)
  | fflush
  | fseek (offset : Nat)
  | fread
  | fclose
  | usleep (d : Int)
  | signal (sig : Int)
  | cred (c : CredCall)
  | abort
  | exit (status : Int)
  | ret (status : Int)
  deriving DecidableEq, Repr

/-- The constant `filename`. -/
def filename : String := "/proc/acpi/ibm/light"

/-- The constant `DEFAULT_ON_PERIOD`. -/
def DEFAULT_ON_PERIOD : Int := 250000

/-- The constant `DEFAULT_OFF_PERIOD`. -/
def DEFAULT_OFF_PERIOD : Int := 250000

/-- The signal number of `SIGINT`. -/
def SIGINT : Int := 2

/-! ## Light primitives -/

/-- Body of `lightOn`: rewind, print `on`, flush. -/
def lightOn : List Call := [Call.rewind, Call.fprintf "on", Call.fflush]

/-- Body of `lightOff`: rewind, print `off`, flush. -/
def lightOff : List Call := [Call.rewind, Call.fprintf "off", Call.fflush]

/-- Body of `restoreState`, for the value of the global `initialState`. -/
def restoreState (initialState : Int) : List Call :=
  if initialState ≠ 0 then lightOn else lightOff

/-- The value `saveState` leaves in the global `initialState` (which starts at
`0`) when the byte read at offset 10 is `status`. -/
def savedState (status : Char) : Int :=
  if 'n' = status then 1 else 0

/-- Calls issued by `saveState`. -/
def saveState : List Call := [Call.fseek 10, Call.fread]

/-- Body of `terminate`: restore, close, exit with `sig`. -/
def terminate (initialState : Int) (sig : Int) : List Call :=
  restoreState initialState ++ [Call.fclose, Call.exit sig]

/-! ## `blink` -/

/-- Conversion of an `int` to `useconds_t`, an unsigned 32-bit integer: the
conversion made when `usleep` is called with an `int` argument. -/
def toUseconds (d : Int) : Int := d % 4294967296

/-- One pass through the body of the `while` loop of `blink`, with `t` the value
of the counter after the decrement of the loop test. -/
def blinkBody (initialState times onPeriod offPeriod t : Int) : List Call :=
  (if t < wrapInt (times - 1) ∨ initialState = 0 then
      lightOn ++ [Call.usleep (toUseconds onPeriod)] else []) ++
  (if t ≠ 0 ∨ initialState ≠ 0 then
      lightOff ++ [Call.usleep (toUseconds offPeriod)] else [])

/-- The loop `while (t--) { ... }` of `blink`: the traces of the successive
iterations, or `none` when the fuel runs out before the loop ends. -/
def blinkLoop (initialState times onPeriod offPeriod : Int) :
    Nat → Int → Option (List (List Call))
  | 0, _ => none
  | fuel + 1, t =>
    if t = 0 then some []
    else
      let t1 := wrapInt (t - 1)
      match blinkLoop initialState times onPeriod offPeriod fuel t1 with
      | none => none
      | some rest => some (blinkBody initialState times onPeriod offPeriod t1 :: rest)

/-- Iterations performed by `blink (times, onPeriod, offPeriod)`, each with its
trace. -/
def blinkIterations (fuel : Nat) (initialState times onPeriod offPeriod : Int) :
    Option (List (List Call)) :=
  if times = 0 then some []
  else blinkLoop initialState times onPeriod offPeriod fuel times

/-- Trace of `blink (times, onPeriod, offPeriod)`. -/
def blink (fuel : Nat) (initialState times onPeriod offPeriod : Int) :
    Option (List Call) :=
  (blinkIterations fuel initialState times onPeriod offPeriod).map List.flatten

/-! ## `dropPrivs` -/

/-- Real and effective ids of the process when `dropPrivs` is entered: the
values returned by `getgid`, `getegid`, `getuid` and `geteuid`. -/
structure Creds where
  rgid : Nat
  egid : Nat
  ruid : Nat
  euid : Nat
  deriving DecidableEq, Repr

/-- Outcomes of the credential system calls `dropPrivs` may make after it has
captured the ids: whether each setter succeeds, and the effective ids read
back by the verification step. -/
structure CredOutcomes where
  setregidOk : Bool
  setreuidOk : Bool
  setegidOk : Bool
  egidAfter : Nat
  seteuidOk : Bool
  euidAfter : Nat
  deriving DecidableEq, Repr

/-- Return value of a credential setter: `0` on success, `-1` on failure. -/
def sysRet (ok : Bool) : Int := if ok then 0 else -1

/-- Outcome of a piece of `dropPrivs`: `ok tr` when control goes on after the
calls `tr`, `error tr` when the process was aborted, `tr` ending in `abort`. -/
inductive Step where
  | ok (tr : List Call)
  | error (tr : List Call)
  deriving DecidableEq, Repr

/-- Sequencing of two pieces: the second runs only when the first goes on. -/
def Step.andThen (s : Step) (f : List Call → Step) : Step :=
  match s with
  | Step.ok tr => f tr
  | Step.error tr => Step.error tr

/-- The declarations of `dropPrivs`, then `if (!olduid) setgroups(1, &newgid);`. -/
def dropGroups (c : Creds) : List Call :=
  [Call.cred CredCall.getgid, Call.cred CredCall.getegid,
   Call.cred CredCall.getuid, Call.cred CredCall.geteuid] ++
  (if c.euid = 0 then [Call.cred (CredCall.setgroups c.rgid)] else [])

/-- `if ((newgid != oldgid) && (-1 == setregid(newgid, newgid))) abort();` -/
def dropGid (c : Creds) (o : CredOutcomes) (tr : List Call) : Step :=
  if c.rgid ≠ c.egid then
    if -1 = sysRet o.setregidOk then
      Step.error (tr ++ [Call.cred (CredCall.setregid c.rgid c.rgid), Call.abort])
    else Step.ok (tr ++ [Call.cred (CredCall.setregid c.rgid c.rgid)])
  else Step.ok tr

/-- `if ((newuid != olduid) && (-1 == setreuid(newuid, newuid))) abort();` -/
def dropUid (c : Creds) (o : CredOutcomes) (tr : List Call) : Step :=
  if c.ruid ≠ c.euid then
    if -1 = sysRet o.setreuidOk then
      Step.error (tr ++ [Call.cred (CredCall.setreuid c.ruid c.ruid), Call.abort])
    else Step.ok (tr ++ [Call.cred (CredCall.setreuid c.ruid c.ruid)])
  else Step.ok tr

/-- `if (newgid != oldgid && (-1 != setegid(oldgid) || getegid() != newgid)) abort();` -/
def verifyGid (c : Creds) (o : CredOutcomes) (tr : List Call) : Step :=
  if c.rgid ≠ c.egid then
    if -1 ≠ sysRet o.setegidOk then
      Step.error (tr ++ [Call.cred (CredCall.setegid c.egid), Call.abort])
    else if o.egidAfter ≠ c.rgid then
      Step.error (tr ++ [Call.cred (CredCall.setegid c.egid),
        Call.cred CredCall.getegid, Call.abort])
    else Step.ok (tr ++ [Call.cred (CredCall.setegid c.egid), Call.cred CredCall.getegid])
  else Step.ok tr

/-- `if (newuid != olduid && (-1 != seteuid(olduid) || geteuid() != newuid)) abort();` -/
def verifyUid (c : Creds) (o : CredOutcomes) (tr : List Call) : Step :=
  if c.ruid ≠ c.euid then
    if -1 ≠ sysRet o.seteuidOk then
      Step.error (tr ++ [Call.cred (CredCall.seteuid c.euid), Call.abort])
    else if o.euidAfter ≠ c.ruid then
      Step.error (tr ++ [Call.cred (CredCall.seteuid c.euid),
        Call.cred CredCall.geteuid, Call.abort])
    else Step.ok (tr ++ [Call.cred (CredCall.seteuid c.euid), Call.cred CredCall.geteuid])
  else Step.ok tr

/-- The function `dropPrivs`: `ok tr` when it returns, `error tr` when it aborts
the process. -/
def dropPrivs (c : Creds) (o : CredOutcomes) : Step :=
  (((dropGid c o (dropGroups c)).andThen (dropUid c o)).andThen
    (verifyGid c o)).andThen (verifyUid c o)

/-! ## `main` -/

/-- What the `switch (argc - 1)` of `main` selects. -/
inductive Mode where
  | usage
  | oneShot (switchOn : Bool)
  | blinking (times onPeriod offPeriod : Int)
  deriving DecidableEq, Repr

/-- The `switch (argc - 1)` of `main`, on the arguments `argv[1..]`. -/
def parseArgs : List String → Mode
  | [a1] =>
    if a1 = "on" then Mode.oneShot true
    else if a1 = "off" then Mode.oneShot false
    else Mode.blinking (atoi a1) DEFAULT_ON_PERIOD DEFAULT_OFF_PERIOD
  | [a1, a2] => Mode.blinking (atoi a1) (atoi a2) (atoi a2)
  | [a1, a2, a3] => Mode.blinking (atoi a1) (atoi a2) (atoi a3)
  | _ => Mode.usage

/-- The `default` case of the switch. -/
def usageCalls : List Call :=
  [Call.printf "thinkalert <on|off>\n",
   Call.printf "thinkalert <times> [interval (microseconds)]\n",
   Call.printf "thinkalert <times> <on period (microseconds)> <off period (microseconds)>\n",
   Call.fclose, Call.exit 0]

/-- The branch `if (noBlink)` of `main`, followed by `return 0`. -/
def oneShotPath (switchOn : Bool) : List Call :=
  (if switchOn then lightOn else lightOff) ++ [Call.fclose, Call.ret 0]

/-- Calls of `body` followed by `normal`, unless a signal is delivered after
`n` calls of `body`: the handler then runs in place of the rest and, as it
exits the process, nothing follows it. -/
def interruptible (body handler normal : List Call) : Option Nat → List Call
  | some n => if n ≤ body.length then body.take n ++ handler else body ++ normal
  | none => body ++ normal

/-- The `else` branch of `main`: `saveState`, install `terminate` for `SIGINT`,
`blink`, `terminate(0)`.  `status` is the byte `saveState` reads and
`interrupt` the number of calls of `blink` after which `SIGINT` arrives. -/
def blinkPath (fuel : Nat) (status : Char) (interrupt : Option Nat)
    (times onPeriod offPeriod : Int) : Option (List Call) :=
  match blink fuel (savedState status) times onPeriod offPeriod with
  | none => none
  | some b =>
    some (saveState ++ [Call.signal SIGINT] ++
      interruptible b (terminate (savedState status) SIGINT)
        (terminate (savedState status) 0) interrupt)

/-- The part of `main` after `dropPrivs` has returned. -/
def mainAfterPrivs (fuel : Nat) (args : List String) (status : Char)
    (interrupt : Option Nat) : Option (List Call) :=
  match parseArgs args with
  | Mode.usage => some usageCalls
  | Mode.oneShot switchOn => some (oneShotPath switchOn)
  | Mode.blinking times onPeriod offPeriod =>
    blinkPath fuel status interrupt times onPeriod offPeriod

/-- What `main` finds outside the program.  `fopenErrno` is `none` when `fopen`
succeeds and the error it sets otherwise; `errnoAfterPerror` is the value of
`errno` once `perror` has returned, which is what `return errno` reads. -/
structure Env where
  fopenErrno : Option Int
  creds : Creds
  outcomes : CredOutcomes
  status : Char
  interrupt : Option Nat
  errnoAfterPerror : Int

/-- The function `main` on the arguments `argv[1..]`. -/
def main (fuel : Nat) (args : List String) (env : Env) : Option (List Call) :=
  match env.fopenErrno with
  | some _ =>
    some [Call.fopen filename "r+",
      Call.perror "Unable to open the ThinkLight interface", Call.ret env.errnoAfterPerror]
  | none =>
    match dropPrivs env.creds env.outcomes with
    | Step.error tr => some (Call.fopen filename "r+" :: tr)
    | Step.ok tr =>
      (mainAfterPrivs fuel args env.status env.interrupt).map
        (fun rest => Call.fopen filename "r+" :: tr ++ rest)

/-! ## The device behind the stream

The control file is written through a buffered stream.  The bytes reach the
device when the stream is flushed; the device reads `on` or `off` written at
offset 0 as a command. -/

/-- Position and unflushed output of the stream `thinklight`. -/
structure Stream where
  pos : Nat
  pending : List (Nat × String)
  deriving DecidableEq, Repr

/-- Effect of one call on the stream: the new stream and the writes that reach
the device. -/
def streamStep (s : Stream) : Call → Stream × List (Nat × String)
  | Call.rewind => (⟨0, []⟩, s.pending)
  | Call.fseek n => (⟨n, []⟩, s.pending)
  | Call.fprintf str => (⟨s.pos + str.length, s.pending ++ [(s.pos, str)]⟩, [])
  | Call.fflush => (⟨s.pos, []⟩, s.pending)
  | Call.fclose => (⟨s.pos, []⟩, s.pending)
  | Call.fread => (⟨s.pos + 1, []⟩, s.pending)
  | _ => (s, [])

/-- Writes that reach the device during a trace, from stream state `s`. -/
def deviceWritesFrom : Stream → List Call → List (Nat × String)
  | _, [] => []
  | s, c :: cs => (streamStep s c).2 ++ deviceWritesFrom (streamStep s c).1 cs

/-- Writes that reach the device during a trace, from a freshly opened stream. -/
def deviceWrites (tr : List Call) : List (Nat × String) :=
  deviceWritesFrom ⟨0, []⟩ tr

/-- State of the light after a write: `on` and `off` at offset 0 are commands. -/
def lightAfter (lit : Bool) (w : Nat × String) : Bool :=
  if w = (0, "on") then true else if w = (0, "off") then false else lit

/-- State of the light after the writes of a trace, from state `lit`. -/
def deviceState (lit : Bool) (tr : List Call) : Bool :=
  (deviceWrites tr).foldl lightAfter lit

/-! ## Vocabulary of the specification -/

/-- An on-phase: the light-on write, then a hold of `d` microseconds. -/
def onPhase (d : Int) : List Call := lightOn ++ [Call.usleep d]

/-- An off-phase: the light-off write, then a hold of `d` microseconds. -/
def offPhase (d : Int) : List Call := lightOff ++ [Call.usleep d]

/-- Events the specification gives to iteration index `t` of a blink of `count`
iterations: the on-phase when `t < count - 1` or the initial state was off, then
the off-phase when `t ≠ 0` or the initial state was on. -/
def specIteration (initialOn : Bool) (count : Nat) (onD offD : Int) (t : Nat) :
    List Call :=
  (if (t : Int) < (count : Int) - 1 ∨ initialOn = false then onPhase onD else []) ++
  (if t ≠ 0 ∨ initialOn = true then offPhase offD else [])

/-- Event sequence the specification gives to a blink: `t` runs from
`count - 1` down to `0`. -/
def blinkSpec (initialOn : Bool) (count : Nat) (onD offD : Int) : List Call :=
  (((List.range count).reverse).map (specIteration initialOn count onD offD)).flatten

/-- Number of light-on writes in a trace. -/
def onWrites (tr : List Call) : Nat := tr.count (Call.fprintf "on")

/-- A full blink cycle: an on-phase followed by an off-phase. -/
def cycle (onD offD : Int) : List Call := onPhase onD ++ offPhase offD

/-- The bodies of the iterations for the counter values `k - 1, ..., 0`. -/
def bodiesBelow (initialState times onPeriod offPeriod : Int) (k : Nat) : List (List Call) :=
  ((List.range k).reverse).map
    (fun t : Nat => blinkBody initialState times onPeriod offPeriod (t : Int))

/-- Calls of `dropPrivs` after the capture of the ids, in program order, when
both the gid and the uid are dropped and every check passes. -/
def dropSequence (c : Creds) : List Call :=
  [Call.cred (CredCall.setregid c.rgid c.rgid), Call.cred (CredCall.setreuid c.ruid c.ruid),
   Call.cred (CredCall.setegid c.egid), Call.cred CredCall.getegid,
   Call.cred (CredCall.seteuid c.euid), Call.cred CredCall.geteuid]

/-- The result `r` of a piece of `dropPrivs` entered after the calls `tr` adds to
`tr` calls taken in order from `calls`, and `abort` when it is an error. -/
def Extends (calls tr : List Call) : Step → Prop
  | Step.ok t => ∃ xs, t = tr ++ xs ∧ List.Sublist xs calls
  | Step.error t => ∃ xs, t = tr ++ xs ++ [Call.abort] ∧ List.Sublist xs calls

/-- Stream state after a trace, from stream state `s`. -/
def streamAfter : Stream → List Call → Stream
  | s, [] => s
  | s, c :: cs => streamAfter (streamStep s c).1 cs

/-- The token `restoreState` writes for the value of `initialState`. -/
def restoreToken (initialState : Int) : String :=
  if initialState ≠ 0 then "on" else "off"

/-- The calls of `n` successive calls of `restoreState`. -/
def restores (initialState : Int) (n : Nat) : List Call :=
  (List.replicate n (restoreState initialState)).flatten

/-! ## Lemmas on the loop of `blink` -/

theorem wrapInt_of_range (x : Int) (h1 : -2147483648 ≤ x) (h2 : x < 2147483648) :
    wrapInt x = x := by
  unfold wrapInt; omega

theorem wrapInt_range (x : Int) : -2147483648 ≤ wrapInt x ∧ wrapInt x < 2147483648 := by
  unfold wrapInt; omega

theorem toUseconds_of_nonneg (d : Int) (h1 : 0 ≤ d) (h2 : d < 2147483648) :
    toUseconds d = d := by
  unfold toUseconds; omega

theorem atoi_range (s : String) : -2147483648 ≤ atoi s ∧ atoi s < 2147483648 :=
  wrapInt_range _

theorem bodiesBelow_zero (i ts a b : Int) : bodiesBelow i ts a b 0 = [] := rfl

theorem bodiesBelow_succ (i ts a b : Int) (k : Nat) :
    bodiesBelow i ts a b (k + 1) = blinkBody i ts a b (k : Int) :: bodiesBelow i ts a b k := by
  simp [bodiesBelow, List.range_succ]

theorem bodiesBelow_length (i ts a b : Int) (k : Nat) :
    (bodiesBelow i ts a b k).length = k := by
  simp [bodiesBelow]

/-- From a non-negative counter value `k` the loop runs the iterations
`k - 1, ..., 0` and ends, whenever the fuel exceeds `k`. -/
theorem blinkLoop_nat (i ts a b : Int) :
    ∀ (k fuel : Nat), k < 2147483648 → k < fuel →
      blinkLoop i ts a b fuel (k : Int) = some (bodiesBelow i ts a b k) := by
  intro k
  induction k with
  | zero =>
    intro fuel _ hf
    obtain ⟨f, rfl⟩ : ∃ f, fuel = f + 1 := ⟨fuel - 1, by omega⟩
    simp [blinkLoop, bodiesBelow_zero]
  | succ k ih =>
    intro fuel hk hf
    obtain ⟨f, rfl⟩ : ∃ f, fuel = f + 1 := ⟨fuel - 1, by omega⟩
    have hw : wrapInt (((k + 1 : Nat) : Int) - 1) = (k : Int) := by
      rw [wrapInt_of_range] <;> omega
    have hne : ((k + 1 : Nat) : Int) ≠ 0 := by omega
    rw [blinkLoop, if_neg hne]
    simp only [hw]
    rw [ih f (by omega) (by omega), bodiesBelow_succ]

theorem blinkIterations_nat (i a b : Int) (n fuel : Nat) (hn : n < 2147483648)
    (hf : n < fuel) :
    blinkIterations fuel i (n : Int) a b = some (bodiesBelow i n a b n) := by
  unfold blinkIterations
  split
  · next h =>
    have : n = 0 := by omega
    subst this
    simp [bodiesBelow_zero]
  · exact blinkLoop_nat i n a b n fuel hn hf

theorem blink_nat (i a b : Int) (n fuel : Nat) (hn : n < 2147483648) (hf : n < fuel) :
    blink fuel i (n : Int) a b = some (bodiesBelow i n a b n).flatten := by
  simp [blink, blinkIterations_nat i a b n fuel hn hf]

theorem blinkBody_eq_spec (i a b : Int) (n t : Nat) (hn : n < 2147483648) :
    blinkBody i (n : Int) a b (t : Int)
      = specIteration (decide (i ≠ 0)) n (toUseconds a) (toUseconds b) t := by
  have hw : wrapInt ((n : Int) - 1) = (n : Int) - 1 := by
    rw [wrapInt_of_range] <;> omega
  unfold blinkBody specIteration onPhase offPhase
  rw [hw]
  by_cases hi : i = 0 <;> simp [hi]

theorem onWrites_append (xs ys : List Call) :
    onWrites (xs ++ ys) = onWrites xs + onWrites ys := by
  simp [onWrites]

theorem onWrites_blinkBody (i a b : Int) (n t : Nat) (hn : n < 2147483648) :
    onWrites (blinkBody i (n : Int) a b (t : Int))
      = if (t : Int) < (n : Int) - 1 ∨ i = 0 then 1 else 0 := by
  have hw : wrapInt ((n : Int) - 1) = (n : Int) - 1 := by
    rw [wrapInt_of_range] <;> omega
  unfold blinkBody
  rw [hw, onWrites_append]
  split_ifs <;> simp [onWrites, lightOn, lightOff]

/-- Light-on writes of the iterations `k - 1, ..., 0` of a blink of `n`. -/
theorem onWrites_bodiesBelow (i a b : Int) (n : Nat) (hn : n < 2147483648) :
    ∀ k : Nat, k ≤ n →
      onWrites (bodiesBelow i n a b k).flatten = if i = 0 then k else min k (n - 1) := by
  intro k
  induction k with
  | zero => intro _; simp [bodiesBelow_zero, onWrites]
  | succ k ih =>
    intro hk
    rw [bodiesBelow_succ, List.flatten_cons, onWrites_append, ih (by omega),
      onWrites_blinkBody i a b n k hn]
    by_cases hi : i = 0
    · simp [hi]; omega
    · simp only [hi, or_false, if_false]
      by_cases hlt : (k : Int) < (n : Int) - 1
      · rw [if_pos hlt]; omega
      · rw [if_neg hlt]; omega

/-- With initial state off, the iterations `k, ..., 0` are `k` full cycles and a
last on-phase. -/
theorem bodiesBelow_off (a b : Int) (n : Nat) :
    ∀ k : Nat,
      (bodiesBelow 0 n a b (k + 1)).flatten
        = (List.replicate k (cycle (toUseconds a) (toUseconds b))).flatten
          ++ onPhase (toUseconds a) := by
  intro k
  induction k with
  | zero => simp [bodiesBelow_succ, bodiesBelow_zero, blinkBody, onPhase]
  | succ k ih =>
    rw [bodiesBelow_succ, List.flatten_cons, ih, List.replicate_succ, List.flatten_cons,
      List.append_assoc]
    congr 1
    have hne : (k : Int) + 1 ≠ 0 := by omega
    simp [blinkBody, cycle, onPhase, offPhase, hne]

/-- With initial state on, the iterations below the first one are full cycles. -/
theorem bodiesBelow_on (i a b : Int) (hi : i ≠ 0) (n : Nat) (hn : n < 2147483648) :
    ∀ k : Nat, k + 1 ≤ n →
      (bodiesBelow i n a b k).flatten
        = (List.replicate k (cycle (toUseconds a) (toUseconds b))).flatten := by
  intro k
  induction k with
  | zero => intro _; simp [bodiesBelow_zero]
  | succ k ih =>
    intro hk
    have hw : wrapInt ((n : Int) - 1) = (n : Int) - 1 := by
      rw [wrapInt_of_range] <;> omega
    have hlt : (k : Int) < (n : Int) - 1 := by omega
    rw [bodiesBelow_succ, List.flatten_cons, ih (by omega), List.replicate_succ,
      List.flatten_cons]
    congr 1
    simp [blinkBody, cycle, onPhase, offPhase, hw, hlt, hi]

/-- With initial state on, the first iteration of a blink is an off-phase alone. -/
theorem blinkBody_first_on (i a b : Int) (hi : i ≠ 0) (k : Nat) (hk : k + 1 < 2147483648) :
    blinkBody i ((k + 1 : Nat) : Int) a b (k : Int) = offPhase (toUseconds b) := by
  have hw : wrapInt (k : Int) = (k : Int) := by
    rw [wrapInt_of_range] <;> omega
  simp [blinkBody, offPhase, hw, hi]

/-- With initial state off, a blink of `k + 1` is `k` full cycles and a last
on-phase: the off-phase of the last iteration is skipped. -/
theorem blink_off (a b : Int) (k fuel : Nat) (hk : k + 1 < 2147483648) (hf : k + 1 < fuel) :
    blink fuel 0 ((k + 1 : Nat) : Int) a b
      = some ((List.replicate k (cycle (toUseconds a) (toUseconds b))).flatten
          ++ onPhase (toUseconds a)) := by
  rw [blink_nat 0 a b (k + 1) fuel hk hf, bodiesBelow_off]

/-- With initial state on, a blink of `k + 1` is an off-phase followed by `k`
full cycles: the on-phase of the first iteration is skipped. -/
theorem blink_on (i a b : Int) (hi : i ≠ 0) (k fuel : Nat) (hk : k + 1 < 2147483648)
    (hf : k + 1 < fuel) :
    blink fuel i ((k + 1 : Nat) : Int) a b
      = some (offPhase (toUseconds b)
          ++ (List.replicate k (cycle (toUseconds a) (toUseconds b))).flatten) := by
  rw [blink_nat i a b (k + 1) fuel hk hf, bodiesBelow_succ, List.flatten_cons,
    blinkBody_first_on i a b hi k hk, bodiesBelow_on i a b hi (k + 1) hk k (le_refl _)]

theorem savedState_off (status : Char) (hs : status ≠ 'n') : savedState status = 0 := by
  unfold savedState
  rw [if_neg]
  exact fun h => hs h.symm

/-! ## Lemmas on `dropPrivs` -/

theorem dropPrivs_ok_iff (c : Creds) (o : CredOutcomes) :
    (∃ tr, dropPrivs c o = Step.ok tr) ↔
      (c.rgid = c.egid ∨ (o.setregidOk = true ∧ o.setegidOk = false ∧ o.egidAfter = c.rgid))
      ∧ (c.ruid = c.euid ∨ (o.setreuidOk = true ∧ o.seteuidOk = false ∧ o.euidAfter = c.ruid)) := by
  rcases o with ⟨b1, b2, b3, e, b4, u⟩
  by_cases hg : c.rgid = c.egid <;> by_cases hu : c.ruid = c.euid <;>
    cases b1 <;> cases b2 <;> cases b3 <;> cases b4 <;>
    by_cases he : e = c.rgid <;> by_cases hu2 : u = c.ruid <;>
    simp [dropPrivs, Step.andThen, dropGid, dropUid, verifyGid, verifyUid, sysRet, hg, hu, he, hu2]

theorem dropGid_extends (c : Creds) (o : CredOutcomes) (tr : List Call) :
    Extends [Call.cred (CredCall.setregid c.rgid c.rgid)] tr (dropGid c o tr) := by
  unfold dropGid
  split_ifs
  · exact ⟨_, by simp, List.Sublist.refl _⟩
  · exact ⟨_, rfl, List.Sublist.refl _⟩
  · exact ⟨[], by simp, by simp⟩

theorem dropUid_extends (c : Creds) (o : CredOutcomes) (tr : List Call) :
    Extends [Call.cred (CredCall.setreuid c.ruid c.ruid)] tr (dropUid c o tr) := by
  unfold dropUid
  split_ifs
  · exact ⟨_, by simp, List.Sublist.refl _⟩
  · exact ⟨_, rfl, List.Sublist.refl _⟩
  · exact ⟨[], by simp, by simp⟩

theorem verifyGid_extends (c : Creds) (o : CredOutcomes) (tr : List Call) :
    Extends [Call.cred (CredCall.setegid c.egid), Call.cred CredCall.getegid] tr
      (verifyGid c o tr) := by
  unfold verifyGid
  split_ifs
  · exact ⟨[Call.cred (CredCall.setegid c.egid)], by simp, by simp⟩
  · exact ⟨_, by simp, List.Sublist.refl _⟩
  · exact ⟨_, rfl, List.Sublist.refl _⟩
  · exact ⟨[], by simp, by simp⟩

theorem verifyUid_extends (c : Creds) (o : CredOutcomes) (tr : List Call) :
    Extends [Call.cred (CredCall.seteuid c.euid), Call.cred CredCall.geteuid] tr
      (verifyUid c o tr) := by
  unfold verifyUid
  split_ifs
  · exact ⟨[Call.cred (CredCall.seteuid c.euid)], by simp, by simp⟩
  · exact ⟨_, by simp, List.Sublist.refl _⟩
  · exact ⟨_, rfl, List.Sublist.refl _⟩
  · exact ⟨[], by simp, by simp⟩

theorem andThen_extends (l1 l2 tr : List Call) (r : Step) (f : List Call → Step)
    (h1 : Extends l1 tr r) (h2 : ∀ t, Extends l2 t (f t)) :
    Extends (l1 ++ l2) tr (r.andThen f) := by
  cases r with
  | error t =>
    obtain ⟨xs, rfl, hxs⟩ := h1
    exact ⟨xs, rfl, hxs.trans (List.sublist_append_left l1 l2)⟩
  | ok t =>
    obtain ⟨xs, rfl, hxs⟩ := h1
    have h := h2 (tr ++ xs)
    simp only [Step.andThen]
    cases hf : f (tr ++ xs) with
    | ok u =>
      rw [hf] at h
      obtain ⟨ys, rfl, hys⟩ := h
      exact ⟨xs ++ ys, by simp, hxs.append hys⟩
    | error u =>
      rw [hf] at h
      obtain ⟨ys, rfl, hys⟩ := h
      exact ⟨xs ++ ys, by simp, hxs.append hys⟩

theorem dropPrivs_extends (c : Creds) (o : CredOutcomes) :
    Extends (dropSequence c) (dropGroups c) (dropPrivs c o) := by
  have h := andThen_extends _ _ _ _ _
    (andThen_extends _ _ _ _ _
      (andThen_extends _ _ _ _ _ (dropGid_extends c o (dropGroups c)) (dropUid_extends c o))
      (verifyGid_extends c o))
    (verifyUid_extends c o)
  simpa [dropSequence, dropPrivs] using h

theorem dropPrivs_all (c : Creds) (o : CredOutcomes) (hg : c.rgid ≠ c.egid)
    (hu : c.ruid ≠ c.euid) (tr : List Call) (h : dropPrivs c o = Step.ok tr) :
    tr = dropGroups c ++ dropSequence c := by
  have hok := (dropPrivs_ok_iff c o).1 ⟨tr, h⟩
  obtain ⟨h1 | ⟨a1, a2, a3⟩, h2 | ⟨b1, b2, b3⟩⟩ := hok
  · exact absurd h1 hg
  · exact absurd h1 hg
  · exact absurd h2 hu
  · simp [dropPrivs, Step.andThen, dropGid, dropUid, verifyGid, verifyUid, sysRet, hg, hu,
      a1, a2, a3, b1, b2, b3] at h
    simp [← h, dropSequence]

/-! ## Lemmas on the stream and the device -/

theorem deviceWritesFrom_append (xs ys : List Call) :
    ∀ s : Stream, deviceWritesFrom s (xs ++ ys)
      = deviceWritesFrom s xs ++ deviceWritesFrom (streamAfter s xs) ys := by
  induction xs with
  | nil => intro s; simp [deviceWritesFrom, streamAfter]
  | cons c cs ih => intro s; simp [deviceWritesFrom, streamAfter, ih]

theorem restoreState_eq (i : Int) :
    restoreState i = [Call.rewind, Call.fprintf (restoreToken i), Call.fflush] := by
  unfold restoreState restoreToken
  split_ifs <;> rfl

theorem deviceWritesFrom_restoreState (i : Int) (s : Stream) :
    deviceWritesFrom s (restoreState i) = s.pending ++ [(0, restoreToken i)] := by
  simp [restoreState_eq, deviceWritesFrom, streamStep]

theorem streamAfter_restoreState_pending (i : Int) (s : Stream) :
    (streamAfter s (restoreState i)).pending = [] := by
  simp [restoreState_eq, streamAfter, streamStep]

theorem deviceWritesFrom_restores (i : Int) :
    ∀ (n : Nat) (s : Stream), s.pending = [] →
      deviceWritesFrom s (restores i n) = List.replicate n (0, restoreToken i) := by
  intro n
  induction n with
  | zero => intro s _; simp [restores, deviceWritesFrom]
  | succ n ih =>
    intro s hs
    have hr : restores i (n + 1) = restoreState i ++ restores i n := by
      simp [restores, List.replicate_succ]
    rw [hr, deviceWritesFrom_append, deviceWritesFrom_restoreState, hs,
      ih _ (streamAfter_restoreState_pending i s), List.replicate_succ]
    simp

/-- Writes of a run that ends with `n + 1` calls of `restoreState`: some writes,
then `n + 1` times the restoring token at offset 0. -/
theorem deviceWrites_restores (i : Int) (tr : List Call) (n : Nat) :
    ∃ ws, ∀ m : Nat, m ≤ n → deviceWrites (tr ++ restores i (m + 1))
      = ws ++ List.replicate (m + 1) (0, restoreToken i) := by
  refine ⟨deviceWritesFrom ⟨0, []⟩ tr ++ (streamAfter ⟨0, []⟩ tr).pending, ?_⟩
  intro m _
  have hr : restores i (m + 1) = restoreState i ++ restores i m := by
    simp [restores, List.replicate_succ]
  unfold deviceWrites
  rw [deviceWritesFrom_append, hr, deviceWritesFrom_append, deviceWritesFrom_restoreState,
    deviceWritesFrom_restores i m _ (streamAfter_restoreState_pending i _),
    List.replicate_succ]
  simp

theorem lightAfter_restoreToken (i : Int) (lit : Bool) :
    lightAfter lit (0, restoreToken i) = decide (i ≠ 0) := by
  unfold lightAfter restoreToken
  by_cases hi : i = 0 <;> simp [hi]

theorem foldl_lightAfter_replicate (i : Int) :
    ∀ (n : Nat) (lit : Bool),
      (List.replicate (n + 1) (0, restoreToken i)).foldl lightAfter lit = decide (i ≠ 0) := by
  intro n
  induction n with
  | zero => intro lit; simp [lightAfter_restoreToken]
  | succ n ih =>
    intro lit
    rw [List.replicate_succ, List.foldl_cons, ih]

/-! ## Lemmas on `main` -/

theorem parseArgs_blinking_range (args : List String) (t a b : Int)
    (h : parseArgs args = Mode.blinking t a b) :
    (-2147483648 ≤ t ∧ t < 2147483648) ∧ (-2147483648 ≤ a ∧ a < 2147483648)
      ∧ (-2147483648 ≤ b ∧ b < 2147483648) := by
  rcases args with _ | ⟨a1, _ | ⟨a2, _ | ⟨a3, _ | ⟨a4, r⟩⟩⟩⟩
  · simp [parseArgs] at h
  · by_cases h1 : a1 = "on"
    · simp [parseArgs, h1] at h
    · by_cases h2 : a1 = "off"
      · simp [parseArgs, h2] at h
      · simp only [parseArgs, h1, h2, if_false] at h
        obtain ⟨rfl, rfl, rfl⟩ := Mode.blinking.inj h
        exact ⟨atoi_range a1, by decide, by decide⟩
  · obtain ⟨rfl, rfl, rfl⟩ := Mode.blinking.inj h
    exact ⟨atoi_range a1, atoi_range a2, atoi_range a2⟩
  · obtain ⟨rfl, rfl, rfl⟩ := Mode.blinking.inj h
    exact ⟨atoi_range a1, atoi_range a2, atoi_range a3⟩
  · simp [parseArgs] at h

/-! ## Theorems -/

/-- C1: for every count ≥ 0 (a C `int`), all durations (non-negative C `int`
values, which `usleep` receives unchanged) and every initial state, `blink` ends
and its trace is the event sequence of the specification: `t` runs from
`count - 1` down to `0`, the on-phase is emitted iff `t < count - 1` or the
initial state was off, the off-phase iff `t ≠ 0` or the initial state was on; for
count `0` nothing is emitted. -/
theorem C1_blink_event_sequence (count : Nat) (hc : count < 2147483648)
    (initialState onD offD : Int) (hon : 0 ≤ onD) (hon2 : onD < 2147483648)
    (hoff : 0 ≤ offD) (hoff2 : offD < 2147483648) (fuel : Nat) (hf : count < fuel) :
    blink fuel initialState (count : Int) onD offD
        = some (blinkSpec (decide (initialState ≠ 0)) count onD offD)
      ∧ (∀ fuel0 : Nat, blink fuel0 initialState 0 onD offD = some [])
      ∧ blinkSpec (decide (initialState ≠ 0)) 0 onD offD = [] := by
  refine ⟨?_, ?_, rfl⟩
  · rw [blink_nat initialState onD offD count fuel hc hf]
    unfold blinkSpec bodiesBelow
    congr 2
    apply List.map_congr_left
    intro t _
    rw [blinkBody_eq_spec initialState onD offD count t hc,
      toUseconds_of_nonneg onD hon hon2, toUseconds_of_nonneg offD hoff hoff2]
  · intro fuel0
    simp [blink, blinkIterations]

/-- Witness of C1 at count 3, durations 5 and 7, initial state off. -/
theorem C1_blink_event_sequence_witness :
    blink 4 0 ((3 : Nat) : Int) 5 7 = some (blinkSpec (decide ((0 : Int) ≠ 0)) 3 5 7)
      ∧ (∀ fuel0 : Nat, blink fuel0 0 0 5 7 = some [])
      ∧ blinkSpec (decide ((0 : Int) ≠ 0)) 0 5 7 = [] :=
  C1_blink_event_sequence 3 (by decide) 0 5 7 (by decide) (by decide) (by decide)
    (by decide) 4 (by decide)

/-- C9: for every count ≥ 1 (a C `int`) and all durations, `blink` ends and
issues count - 1 light-on writes when the initial state was on, and count
light-on writes when it was off. -/
theorem C9_on_write_count (count : Nat) (h1 : 1 ≤ count) (hc : count < 2147483648)
    (initialState onD offD : Int) (fuel : Nat) (hf : count < fuel) :
    ∃ tr, blink fuel initialState (count : Int) onD offD = some tr
      ∧ (initialState ≠ 0 → onWrites tr = count - 1)
      ∧ (initialState = 0 → onWrites tr = count) := by
  refine ⟨_, blink_nat initialState onD offD count fuel hc hf, ?_, ?_⟩
  · intro hi
    rw [onWrites_bodiesBelow initialState onD offD count hc count (le_refl _), if_neg hi]
    omega
  · intro hi
    rw [onWrites_bodiesBelow initialState onD offD count hc count (le_refl _), if_pos hi]

/-- Witness of C9 at count 3 with the light initially on. -/
theorem C9_on_write_count_witness :
    ∃ tr, blink 4 1 ((3 : Nat) : Int) 5 7 = some tr
      ∧ ((1 : Int) ≠ 0 → onWrites tr = 3 - 1)
      ∧ ((1 : Int) = 0 → onWrites tr = 3) :=
  C9_on_write_count 3 (by decide) (by decide) 1 5 7 4 (by decide)

/-- C5 (as stated, refuted): with initial state off, `blink (3, 100000, 100000)`
never yields three full on/off pairs. -/
theorem C5_three_full_pairs_refuted :
    parseArgs ["3", "100000"] = Mode.blinking 3 100000 100000
      ∧ savedState 'f' = 0
      ∧ ¬ ∃ fuel : Nat, blink fuel (savedState 'f') 3 100000 100000
          = some (cycle 100000 100000 ++ cycle 100000 100000 ++ cycle 100000 100000) := by
  refine ⟨by decide, by decide, ?_⟩
  rintro ⟨fuel, h⟩
  by_cases hf : 3 < fuel
  · have h3 := blink_off 100000 100000 2 fuel (by decide) hf
    have hs : savedState 'f' = 0 := by decide
    rw [hs] at h
    have hc : ((2 + 1 : Nat) : Int) = 3 := by norm_num
    rw [hc, h] at h3
    revert h3
    decide
  · have hle : fuel ≤ 3 := by omega
    interval_cases fuel <;> revert h <;> decide

/-- C5 (amended): with initial state off, the arguments `["3", "100000"]` give the
run on(100000), off(100000), on(100000), off(100000), on(100000) followed by
the termination routine; in general, for every count ≥ 1 and interval `d` (a
non-negative C `int`) with initial state off, `blink` performs count - 1 full
on(d)/off(d) cycles followed by a last on(d), the off-phase of the last
iteration being skipped. -/
theorem C5_initial_off_run (count : Nat) (h1 : 1 ≤ count) (hc : count < 2147483648)
    (d : Int) (hd : 0 ≤ d) (hd2 : d < 2147483648) (fuel : Nat) (hf : count < fuel)
    (status : Char) (hs : status ≠ 'n') :
    (∀ fuel0 : Nat, 3 < fuel0 →
        mainAfterPrivs fuel0 ["3", "100000"] status none
          = some (saveState ++ [Call.signal SIGINT]
              ++ (onPhase 100000 ++ offPhase 100000 ++ onPhase 100000 ++ offPhase 100000
                  ++ onPhase 100000)
              ++ terminate 0 0))
      ∧ blink fuel (savedState status) (count : Int) d d
          = some ((List.replicate (count - 1) (cycle d d)).flatten ++ onPhase d) := by
  have hs0 := savedState_off status hs
  constructor
  · intro fuel0 hf0
    have hp : parseArgs ["3", "100000"] = Mode.blinking ((2 + 1 : Nat) : Int) 100000 100000 := by
      decide
    have hb := blink_off 100000 100000 2 fuel0 (by decide) hf0
    have hu : toUseconds 100000 = 100000 := by decide
    simp only [mainAfterPrivs, hp, blinkPath, hs0, hb, interruptible, hu]
    simp [cycle, List.replicate]
  · obtain ⟨k, rfl⟩ : ∃ k, count = k + 1 := ⟨count - 1, by omega⟩
    rw [hs0, blink_off d d k fuel hc hf, toUseconds_of_nonneg d hd hd2]
    simp

/-- Witness of C5 (amended) at count 3, interval 100000, status byte `f`. -/
theorem C5_initial_off_run_witness :
    (∀ fuel0 : Nat, 3 < fuel0 →
        mainAfterPrivs fuel0 ["3", "100000"] 'f' none
          = some (saveState ++ [Call.signal SIGINT]
              ++ (onPhase 100000 ++ offPhase 100000 ++ onPhase 100000 ++ offPhase 100000
                  ++ onPhase 100000)
              ++ terminate 0 0))
      ∧ blink 4 (savedState 'f') ((3 : Nat) : Int) 100000 100000
          = some ((List.replicate (3 - 1) (cycle 100000 100000)).flatten ++ onPhase 100000) :=
  C5_initial_off_run 3 (by decide) (by decide) 100000 (by decide) (by decide) 4 (by decide)
    'f' (by decide)

/-- C6 (as stated, refuted): with initial state on, `blink (2, 50000, 75000)`
never yields on(50000), off(75000), on(50000). -/
theorem C6_on_off_on_refuted :
    parseArgs ["2", "50000", "75000"] = Mode.blinking 2 50000 75000
      ∧ savedState 'n' = 1
      ∧ ¬ ∃ fuel : Nat, blink fuel (savedState 'n') 2 50000 75000
          = some (onPhase 50000 ++ offPhase 75000 ++ onPhase 50000) := by
  refine ⟨by decide, by decide, ?_⟩
  rintro ⟨fuel, h⟩
  by_cases hf : 2 < fuel
  · have h3 := blink_on 1 50000 75000 (by decide) 1 fuel (by decide) hf
    have hs : savedState 'n' = 1 := by decide
    rw [hs] at h
    have hc : ((1 + 1 : Nat) : Int) = 2 := by norm_num
    rw [hc, h] at h3
    revert h3
    decide
  · have hle : fuel ≤ 2 := by omega
    interval_cases fuel <;> revert h <;> decide

/-- C6 (amended): with initial state on, the arguments `["2", "50000", "75000"]`
give the run off(75000), on(50000), off(75000) followed by the termination
routine; in general, for every count ≥ 1 and all durations (non-negative C
`int` values) with initial state on, `blink` starts with an off-phase (the on-phase of the first iteration is skipped), goes on with
count - 1 full on/off cycles, and so executes the off-phase of the last
iteration. -/
theorem C6_initial_on_run (count : Nat) (h1 : 1 ≤ count) (hc : count < 2147483648)
    (onD offD : Int) (hon : 0 ≤ onD) (hon2 : onD < 2147483648) (hoff : 0 ≤ offD)
    (hoff2 : offD < 2147483648) (fuel : Nat) (hf : count < fuel) (initialState : Int)
    (hi : initialState ≠ 0) :
    (∀ fuel0 : Nat, 2 < fuel0 →
        mainAfterPrivs fuel0 ["2", "50000", "75000"] 'n' none
          = some (saveState ++ [Call.signal SIGINT]
              ++ (offPhase 75000 ++ onPhase 50000 ++ offPhase 75000)
              ++ terminate 1 0))
      ∧ blink fuel initialState (count : Int) onD offD
          = some (offPhase offD ++ (List.replicate (count - 1) (cycle onD offD)).flatten) := by
  constructor
  · intro fuel0 hf0
    have hp : parseArgs ["2", "50000", "75000"]
        = Mode.blinking ((1 + 1 : Nat) : Int) 50000 75000 := by decide
    have hs1 : savedState 'n' = 1 := by decide
    have hb := blink_on 1 50000 75000 (by decide) 1 fuel0 (by decide) hf0
    have hu1 : toUseconds 50000 = 50000 := by decide
    have hu2 : toUseconds 75000 = 75000 := by decide
    simp only [mainAfterPrivs, hp, blinkPath, hs1, hb, interruptible, hu1, hu2]
    simp [cycle, List.replicate]
  · obtain ⟨k, rfl⟩ : ∃ k, count = k + 1 := ⟨count - 1, by omega⟩
    rw [blink_on initialState onD offD hi k fuel hc hf, toUseconds_of_nonneg onD hon hon2,
      toUseconds_of_nonneg offD hoff hoff2]
    simp

/-- Witness of C6 (amended) at count 2, durations 50000 and 75000. -/
theorem C6_initial_on_run_witness :
    (∀ fuel0 : Nat, 2 < fuel0 →
        mainAfterPrivs fuel0 ["2", "50000", "75000"] 'n' none
          = some (saveState ++ [Call.signal SIGINT]
              ++ (offPhase 75000 ++ onPhase 50000 ++ offPhase 75000)
              ++ terminate 1 0))
      ∧ blink 3 1 ((2 : Nat) : Int) 50000 75000
          = some (offPhase 75000 ++ (List.replicate (2 - 1) (cycle 50000 75000)).flatten) :=
  C6_initial_on_run 2 (by decide) (by decide) 50000 75000 (by decide) (by decide)
    (by decide) (by decide) 3 (by decide) 1 (by decide)

/-- C2: for every blink plan with count ≥ 0, every initial state and every
n ≥ 1, `blink` ends, and after its writes followed by `n` calls of `restoreState`
the last write that reached the device is the token of the recorded initial
state at offset 0, the light is in the recorded initial state, and it is in
the state a single call leaves it in.  `pre` stands for the calls made before
`blink` and `lit` for the state of the light before the run. -/
theorem C2_restore_idempotent (count : Nat) (hc : count < 2147483648)
    (initialState onD offD : Int) (fuel : Nat) (hf : count < fuel)
    (n : Nat) (hn : 1 ≤ n) (pre : List Call) (lit : Bool) :
    ∃ tr, blink fuel initialState (count : Int) onD offD = some tr
      ∧ (deviceWrites (pre ++ tr ++ restores initialState n)).getLast?
          = some (0, restoreToken initialState)
      ∧ deviceState lit (pre ++ tr ++ restores initialState n) = decide (initialState ≠ 0)
      ∧ deviceState lit (pre ++ tr ++ restores initialState n)
          = deviceState lit (pre ++ tr ++ restores initialState 1) := by
  refine ⟨_, blink_nat initialState onD offD count fuel hc hf, ?_⟩
  obtain ⟨m, rfl⟩ : ∃ m, n = m + 1 := ⟨n - 1, by omega⟩
  obtain ⟨ws, hws⟩ := deviceWrites_restores initialState
    (pre ++ (bodiesBelow initialState count onD offD count).flatten) m
  have hm := hws m (le_refl _)
  have h0 := hws 0 (Nat.zero_le _)
  have hstate : ∀ k : Nat, k ≤ m →
      deviceState lit (pre ++ (bodiesBelow initialState count onD offD count).flatten
        ++ restores initialState (k + 1)) = decide (initialState ≠ 0) := by
    intro k hk
    unfold deviceState
    rw [hws k hk, List.foldl_append, foldl_lightAfter_replicate]
  refine ⟨?_, hstate m (le_refl _), ?_⟩
  · rw [hm, List.replicate_succ', ← List.append_assoc, List.getLast?_concat]
  · rw [hstate m (le_refl _), hstate 0 (Nat.zero_le _)]

/-- Witness of C2 at count 2, initial state on, three calls of `restoreState`. -/
theorem C2_restore_idempotent_witness :
    ∃ tr, blink 3 1 ((2 : Nat) : Int) 5 7 = some tr
      ∧ (deviceWrites (saveState ++ tr ++ restores 1 3)).getLast?
          = some (0, restoreToken 1)
      ∧ deviceState false (saveState ++ tr ++ restores 1 3) = decide ((1 : Int) ≠ 0)
      ∧ deviceState false (saveState ++ tr ++ restores 1 3)
          = deviceState false (saveState ++ tr ++ restores 1 1) :=
  C2_restore_idempotent 2 (by decide) 1 5 7 3 (by decide) 3 (by decide) saveState false

/-- C3: on the blink path, for every blink plan with count ≥ 0 and every status
byte, `blink` ends with some trace `tr`; when `SIGINT` arrives after any `n`
calls of `tr`, the rest of the run is one write of the token of the recorded
initial state, `fclose`, and `exit` with the signal number; when `blink`
completes, the same calls follow it with exit status 0. -/
theorem C3_interrupt_then_terminate (count : Nat) (hc : count < 2147483648)
    (onD offD : Int) (status : Char) (fuel : Nat) (hf : count < fuel) :
    ∃ tr, blink fuel (savedState status) (count : Int) onD offD = some tr
      ∧ (∀ n : Nat, n ≤ tr.length →
          blinkPath fuel status (some n) (count : Int) onD offD
            = some (saveState ++ [Call.signal SIGINT] ++ tr.take n
                ++ [Call.rewind, Call.fprintf (restoreToken (savedState status)),
                    Call.fflush, Call.fclose, Call.exit SIGINT]))
      ∧ blinkPath fuel status none (count : Int) onD offD
          = some (saveState ++ [Call.signal SIGINT] ++ tr
              ++ [Call.rewind, Call.fprintf (restoreToken (savedState status)),
                  Call.fflush, Call.fclose, Call.exit 0])
      ∧ SIGINT = 2 := by
  have hb := blink_nat (savedState status) onD offD count fuel hc hf
  refine ⟨_, hb, ?_, ?_, rfl⟩
  · intro n hn
    unfold blinkPath
    rw [hb]
    simp only [interruptible]
    rw [if_pos hn]
    simp [terminate, restoreState_eq]
  · simp [blinkPath, hb, interruptible, terminate, restoreState_eq]

/-- Witness of C3 at count 2, durations 5 and 7, status byte `n`. -/
theorem C3_interrupt_then_terminate_witness :
    ∃ tr, blink 3 (savedState 'n') ((2 : Nat) : Int) 5 7 = some tr
      ∧ (∀ n : Nat, n ≤ tr.length →
          blinkPath 3 'n' (some n) ((2 : Nat) : Int) 5 7
            = some (saveState ++ [Call.signal SIGINT] ++ tr.take n
                ++ [Call.rewind, Call.fprintf (restoreToken (savedState 'n')),
                    Call.fflush, Call.fclose, Call.exit SIGINT]))
      ∧ blinkPath 3 'n' none ((2 : Nat) : Int) 5 7
          = some (saveState ++ [Call.signal SIGINT] ++ tr
              ++ [Call.rewind, Call.fprintf (restoreToken (savedState 'n')),
                  Call.fflush, Call.fclose, Call.exit 0])
      ∧ SIGINT = 2 :=
  C3_interrupt_then_terminate 2 (by decide) 5 7 'n' 3 (by decide)

/-- C4: for all ids and all outcomes of the credential calls, when the gid
(respectively the uid) must be dropped, `dropPrivs` returns only if the
set-to-real call succeeded, the attempt to set the effective id back failed and
the effective id read afterwards is the real id; it returns exactly when this
holds for each id to drop, and otherwise its trace ends in `abort`.  The calls
after the capture of the ids are taken in order from: `setregid`, `setreuid`,
`setegid`, `getegid`, `seteuid`, `geteuid`; all six are made when both ids are
dropped and `dropPrivs` returns. -/
theorem C4_dropPrivs_verified (c : Creds) (o : CredOutcomes) :
    (c.rgid ≠ c.egid → (∃ tr, dropPrivs c o = Step.ok tr) →
        o.setregidOk = true ∧ o.setegidOk = false ∧ o.egidAfter = c.rgid)
      ∧ (c.ruid ≠ c.euid → (∃ tr, dropPrivs c o = Step.ok tr) →
        o.setreuidOk = true ∧ o.seteuidOk = false ∧ o.euidAfter = c.ruid)
      ∧ ((∃ tr, dropPrivs c o = Step.ok tr) ↔
          (c.rgid = c.egid ∨
            (o.setregidOk = true ∧ o.setegidOk = false ∧ o.egidAfter = c.rgid))
          ∧ (c.ruid = c.euid ∨
            (o.setreuidOk = true ∧ o.seteuidOk = false ∧ o.euidAfter = c.ruid)))
      ∧ (∃ xs, List.Sublist xs (dropSequence c)
          ∧ (dropPrivs c o = Step.ok (dropGroups c ++ xs)
            ∨ dropPrivs c o = Step.error (dropGroups c ++ xs ++ [Call.abort])))
      ∧ (c.rgid ≠ c.egid → c.ruid ≠ c.euid → ∀ tr, dropPrivs c o = Step.ok tr →
          tr = dropGroups c ++ dropSequence c) := by
  have hiff := dropPrivs_ok_iff c o
  refine ⟨?_, ?_, hiff, ?_, ?_⟩
  · intro hg hok
    rcases (hiff.1 hok).1 with h | h
    · exact absurd h hg
    · exact h
  · intro hu hok
    rcases (hiff.1 hok).2 with h | h
    · exact absurd h hu
    · exact h
  · have hx := dropPrivs_extends c o
    cases hd : dropPrivs c o with
    | ok t =>
      rw [hd] at hx
      obtain ⟨xs, rfl, hxs⟩ := hx
      exact ⟨xs, hxs, Or.inl rfl⟩
    | error t =>
      rw [hd] at hx
      obtain ⟨xs, rfl, hxs⟩ := hx
      exact ⟨xs, hxs, Or.inr rfl⟩
  · intro hg hu tr h
    exact dropPrivs_all c o hg hu tr h

/-- Witness of C4 for a set-id-root process of user and group 1000 whose drop
succeeds and cannot be undone. -/
theorem C4_dropPrivs_verified_witness :
    dropPrivs ⟨1000, 0, 1000, 0⟩ ⟨true, true, false, 1000, false, 1000⟩
        = Step.ok (dropGroups ⟨1000, 0, 1000, 0⟩ ++ dropSequence ⟨1000, 0, 1000, 0⟩)
      ∧ (true = true ∧ false = false ∧ (1000 : Nat) = 1000) :=
  have h := C4_dropPrivs_verified ⟨1000, 0, 1000, 0⟩ ⟨true, true, false, 1000, false, 1000⟩
  ⟨by decide, h.1 (by decide)
    ⟨dropGroups ⟨1000, 0, 1000, 0⟩ ++ dropSequence ⟨1000, 0, 1000, 0⟩, by decide⟩⟩

/-- C7: for the argument list `["on"]` (respectively `["off"]`), whatever the
status byte and the interrupts, the run after the privilege drop is the light-on
(respectively light-off) write, `fclose` and the return of 0 from `main`: one
write of the token at offset 0 reaches the device, nothing is read from the
stream, no restoring write follows and no handler is installed.  In `main`
these calls come right after `fopen` and the calls of `dropPrivs`. -/
theorem C7_one_shot (fuel : Nat) (status : Char) (interrupt : Option Nat) :
    mainAfterPrivs fuel ["on"] status interrupt
        = some [Call.rewind, Call.fprintf "on", Call.fflush, Call.fclose, Call.ret 0]
      ∧ mainAfterPrivs fuel ["off"] status interrupt
        = some [Call.rewind, Call.fprintf "off", Call.fflush, Call.fclose, Call.ret 0]
      ∧ deviceWrites [Call.rewind, Call.fprintf "on", Call.fflush, Call.fclose, Call.ret 0]
        = [(0, "on")]
      ∧ deviceWrites [Call.rewind, Call.fprintf "off", Call.fflush, Call.fclose, Call.ret 0]
        = [(0, "off")]
      ∧ (∀ (env : Env) (tr : List Call), env.fopenErrno = none →
          dropPrivs env.creds env.outcomes = Step.ok tr →
          main fuel ["on"] env
              = some (Call.fopen filename "r+" :: tr
                  ++ [Call.rewind, Call.fprintf "on", Call.fflush, Call.fclose, Call.ret 0])
            ∧ main fuel ["off"] env
              = some (Call.fopen filename "r+" :: tr
                  ++ [Call.rewind, Call.fprintf "off", Call.fflush, Call.fclose,
                      Call.ret 0])) := by
  have hon : ∀ (st : Char) (ir : Option Nat), mainAfterPrivs fuel ["on"] st ir
      = some [Call.rewind, Call.fprintf "on", Call.fflush, Call.fclose, Call.ret 0] := by
    intro st ir
    have hp : parseArgs ["on"] = Mode.oneShot true := by decide
    simp [mainAfterPrivs, hp, oneShotPath, lightOn]
  have hoff : ∀ (st : Char) (ir : Option Nat), mainAfterPrivs fuel ["off"] st ir
      = some [Call.rewind, Call.fprintf "off", Call.fflush, Call.fclose, Call.ret 0] := by
    intro st ir
    have hp : parseArgs ["off"] = Mode.oneShot false := by decide
    simp [mainAfterPrivs, hp, oneShotPath, lightOff]
  refine ⟨hon status interrupt, hoff status interrupt, by decide, by decide, ?_⟩
  intro env tr hopen hdrop
  simp [main, hopen, hdrop, hon, hoff]

/-- Witness of C7 for a process that has no privilege to drop. -/
theorem C7_one_shot_witness :
    main 0 ["on"] ⟨none, ⟨1000, 1000, 1000, 1000⟩, ⟨true, true, false, 1000, false, 1000⟩,
        'f', none, 0⟩
      = some (Call.fopen filename "r+" :: dropGroups ⟨1000, 1000, 1000, 1000⟩
          ++ [Call.rewind, Call.fprintf "on", Call.fflush, Call.fclose, Call.ret 0]) :=
  ((C7_one_shot 0 'f' none).2.2.2.2
    ⟨none, ⟨1000, 1000, 1000, 1000⟩, ⟨true, true, false, 1000, false, 1000⟩, 'f', none, 0⟩
    (dropGroups ⟨1000, 1000, 1000, 1000⟩) rfl (by decide)).1

/-- C8: a single argument other than `on` and `off` gives the plan
`(atoi a1, 250000, 250000)`, two arguments give `(atoi b1, atoi b2, atoi b2)`,
three arguments give `(atoi c1, atoi c2, atoi c3)`; in each case the run after
the privilege drop is the blink path on that plan, in which `blink` is called
with exactly that plan. -/
theorem C8_blink_plan (a1 : String) (hon : a1 ≠ "on") (hoff : a1 ≠ "off")
    (b1 b2 c1 c2 c3 : String) (fuel : Nat) (status : Char) (interrupt : Option Nat) :
    parseArgs [a1] = Mode.blinking (atoi a1) 250000 250000
      ∧ parseArgs [b1, b2] = Mode.blinking (atoi b1) (atoi b2) (atoi b2)
      ∧ parseArgs [c1, c2, c3] = Mode.blinking (atoi c1) (atoi c2) (atoi c3)
      ∧ mainAfterPrivs fuel [a1] status interrupt
          = blinkPath fuel status interrupt (atoi a1) 250000 250000
      ∧ mainAfterPrivs fuel [b1, b2] status interrupt
          = blinkPath fuel status interrupt (atoi b1) (atoi b2) (atoi b2)
      ∧ mainAfterPrivs fuel [c1, c2, c3] status interrupt
          = blinkPath fuel status interrupt (atoi c1) (atoi c2) (atoi c3)
      ∧ (∀ t a b : Int, blinkPath fuel status none t a b
          = (blink fuel (savedState status) t a b).map
              (fun tr => saveState ++ [Call.signal SIGINT] ++ tr
                ++ terminate (savedState status) 0)) := by
  have h1 : parseArgs [a1] = Mode.blinking (atoi a1) 250000 250000 := by
    simp [parseArgs, hon, hoff, DEFAULT_ON_PERIOD, DEFAULT_OFF_PERIOD]
  refine ⟨h1, rfl, rfl, ?_, rfl, rfl, ?_⟩
  · simp [mainAfterPrivs, h1]
  · intro t a b
    unfold blinkPath
    cases blink fuel (savedState status) t a b <;> simp [interruptible]

/-- Witness of C8 at the argument lists `["5"]`, `["3", "100000"]` and
`["2", "50000", "75000"]`. -/
theorem C8_blink_plan_witness :
    parseArgs ["5"] = Mode.blinking (atoi "5") 250000 250000
      ∧ parseArgs ["3", "100000"] = Mode.blinking (atoi "3") (atoi "100000") (atoi "100000") :=
  have h := C8_blink_plan "5" (by decide) (by decide) "3" "100000" "2" "50000" "75000"
    6 'f' none
  ⟨h.1, h.2.1⟩

/-- C10 (as stated, refuted): the argument list `["-1"]` selects a blink form and
hands `blink` the count -1. -/
theorem C10_negative_count :
    ∃ t a b : Int, parseArgs ["-1"] = Mode.blinking t a b
      ∧ ¬ (0 ≤ t ∧ 0 ≤ a ∧ 0 ≤ b) :=
  ⟨-1, 250000, 250000, by decide, by decide⟩

/-- C10 (amended): for every argument list that selects a blink form, the count
and the two durations handed to `blink` are C `int` values (they can be
negative); whenever the count is not negative, `blink` performs exactly count
iterations and ends. -/
theorem C10_plan_int_and_iterations (args : List String) (t a b : Int)
    (h : parseArgs args = Mode.blinking t a b) (initialState : Int) (fuel : Nat) :
    ((-2147483648 ≤ t ∧ t < 2147483648) ∧ (-2147483648 ≤ a ∧ a < 2147483648)
        ∧ (-2147483648 ≤ b ∧ b < 2147483648))
      ∧ (0 ≤ t → t.toNat < fuel →
          ∃ its, blinkIterations fuel initialState t a b = some its
            ∧ (its.length : Int) = t
            ∧ blink fuel initialState t a b = some its.flatten) := by
  have hr := parseArgs_blinking_range args t a b h
  refine ⟨hr, ?_⟩
  intro h0 hf
  obtain ⟨n, rfl⟩ : ∃ n : Nat, t = (n : Int) := ⟨t.toNat, by omega⟩
  have hn : n < 2147483648 := by omega
  have hf2 : n < fuel := by simpa using hf
  refine ⟨_, blinkIterations_nat initialState a b n fuel hn hf2, ?_, ?_⟩
  · rw [bodiesBelow_length]
  · exact blink_nat initialState a b n fuel hn hf2

/-- Witness of C10 (amended) at the argument list `["3", "100000"]`. -/
theorem C10_plan_int_and_iterations_witness :
    ∃ its, blinkIterations 4 0 3 100000 100000 = some its
      ∧ (its.length : Int) = 3
      ∧ blink 4 0 3 100000 100000 = some its.flatten :=
  (C10_plan_int_and_iterations ["3", "100000"] 3 100000 100000 (by decide) 0 4).2
    (by decide) (by decide)

end ThinkAlert
